import Mathlib

/-
Shallow embedding of src/pkg/core/proxy/integrations/grpc/frame.go
(package grpc of the keploy traffic-capture tool).

The file models:
  * the HTTP/2 frames that `transferFrame` dispatches on, with exactly the
    fields the Go code reads from the parsed frame and passes to the
    corresponding `framer.Write*` call;
  * `splitGrpcTrailerHeaders` and `extractHeaders` as pure functions on
    association lists standing for Go `map[string]string` values (a Go map
    assignment `m[k] = v` is `mapUpsert`, a Go map has pairwise-distinct
    keys);
  * one iteration of the relay loop (`transferStep`) as the pair of the
    frames written to the destination connection and the trace of
    `StreamInfoCollection` operations performed, plus the error if any;
  * the loop itself (`transferLoop`) over a list of per-iteration events
    (context cancellation observed, a frame read, a clean EOF, or another
    read error), threading `time.Now()` as an abstract monotone counter:
    the frame of iteration `i` is processed at time `n + i`.

The HPACK decoder is abstracted as a pure function from a header-block
fragment to either a decode error or the decoded field list in decode
order (hpack `DecodeFull`); the hpack `HeaderField.IsPseudo` test
(`len(Name) != 0 && Name[0] == ':'`) is `isPseudoName`.

Only the two timestamp fields that frame.go assigns directly
(`sic.ReqTimestampMock`, `sic.ResTimestampMock`) are modelled as state
(`SicState`); every other store interaction is kept abstract as an element
of the operation trace, since the claims about them concern only which
operations are invoked, for which stream, and in which order.
-/

namespace Keploy

/-- Decoded hpack header field (hpack.HeaderField restricted to the fields
frame.go reads). -/
structure HeaderField where
  name : String
  value : String
  deriving DecidableEq

/-- hpack HeaderField.IsPseudo: nonempty name whose first byte is a colon. -/
def isPseudoName (n : String) : Bool :=
  match n.toList with
  | [] => false
  | c :: _ => c == ':'

/-- Go map[string]string, as an association list with pairwise-distinct keys. -/
abbrev GoMap := List (String × String)

/-- Go map assignment m[k] = v: replace the value at an existing key,
otherwise add the binding. -/
def mapUpsert : GoMap → String → String → GoMap
  | [], k, v => [(k, v)]
  | (k0, v0) :: rest, k, v =>
    if k0 == k then (k, v) :: rest else (k0, v0) :: mapUpsert rest k v

/-- Go strings.HasPrefix k "grpc-". -/
def startsWithGrpc (k : String) : Bool :=
  "grpc-".toList.isPrefixOf k.toList

/-- Loop body of splitGrpcTrailerHeaders: route one header into the
(normal, trailer) map pair by the "grpc-" prefix test. -/
def splitStep (acc : GoMap × GoMap) (kv : String × String) : GoMap × GoMap :=
  if startsWithGrpc kv.1 then (acc.1, mapUpsert acc.2 kv.1 kv.2)
  else (mapUpsert acc.1 kv.1 kv.2, acc.2)

/-- splitGrpcTrailerHeaders from frame.go: iterate the header map, keys with
the "grpc-" prefix go to the trailer map, all other keys to the normal map.
Returns (normal, trailer). -/
def splitGrpcTrailerHeaders (headers : GoMap) : GoMap × GoMap :=
  headers.foldl splitStep ([], [])

/-- constant for the hpack dynamic table size ceiling (frame.go line 194). -/
def KmaxDynamicTableSize : Nat := 4096

/-- Routing of one decoded header field into the (pseudo, ordinary) map pair,
as done by the loop body of extractHeaders. -/
def classifyStep (acc : GoMap × GoMap) (h : HeaderField) : GoMap × GoMap :=
  if isPseudoName h.name then (mapUpsert acc.1 h.name h.value, acc.2)
  else (acc.1, mapUpsert acc.2 h.name h.value)

/-- extractHeaders from frame.go, with the stateful hpack decoder abstracted
as the pure function `decode` (DecodeFull on the header-block fragment).
On decode failure the Go function returns (nil, nil, wrapped error). -/
def extractHeaders (decode : List Nat → Except String (List HeaderField))
    (frag : List Nat) : Except String (GoMap × GoMap) :=
  match decode frag with
  | .error e => .error ("could not decode headers: " ++ e)
  | .ok hf => .ok (hf.foldl classifyStep ([], []))

/-- http2.Setting: a settings identifier and its value. -/
structure Setting where
  id : Nat
  val : Nat
  deriving DecidableEq

/-- http2.PriorityParam. -/
structure PriorityParam where
  streamDep : Nat
  exclusive : Bool
  weight : Nat
  deriving DecidableEq

/-- The parsed HTTP/2 frames `transferFrame` dispatches on, each carrying
exactly the fields the Go switch reads.  `unknown` stands for any parsed
frame whose dynamic type matches none of the ten listed cases (e.g.
http2.UnknownFrame): the Go type switch has no default branch.
For a parsed GoAway frame `streamID` is the frame-header stream identifier
(the http2 parser rejects GoAway frames whose header stream id is not 0)
and `lastStreamID` is the Last-Stream-ID field of the payload. -/
inductive Frame where
  | settings (isAck : Bool) (settings : List Setting)
  | headers (streamID : Nat) (blockFragment : List Nat) (endStream : Bool)
      (endHeaders : Bool) (padLength : Nat) (priority : PriorityParam)
  | data (streamID : Nat) (endStream : Bool) (bytes : List Nat)
  | ping (isAck : Bool) (bytes : List Nat)
  | windowUpdate (streamID : Nat) (increment : Nat)
  | continuation (streamID : Nat) (endHeaders : Bool) (blockFragment : List Nat)
  | priority (streamID : Nat) (param : PriorityParam)
  | rstStream (streamID : Nat) (errCode : Nat)
  | goAway (streamID : Nat) (lastStreamID : Nat) (errCode : Nat) (debugData : List Nat)
  | pushPromise (streamID : Nat) (promiseID : Nat) (blockFragment : List Nat)
      (endHeaders : Bool) (padLength : Nat)
  | unknown (typ : Nat) (flags : Nat) (streamID : Nat) (payload : List Nat)
  deriving DecidableEq

/-- One invocation of a StreamInfoCollection operation, as performed by
transferFrame.  The two timestamp assignments carry the `time.Now()` value
of the assignment. -/
inductive SicOp where
  | addHeadersForRequest (streamID : Nat) (headers : GoMap) (isPseudo : Bool)
  | addHeadersForResponse (streamID : Nat) (headers : GoMap) (isPseudo : Bool) (isTrailer : Bool)
  | addPayloadForRequest (streamID : Nat) (payload : List Nat)
  | addPayloadForResponse (streamID : Nat) (payload : List Nat)
  | setReqTimestampMock (now : Nat)
  | setResTimestampMock (now : Nat)
  | persistMockForStream (streamID : Nat)
  | resetStream (streamID : Nat)
  deriving DecidableEq

/-- The errors transferFrame can return: clean EOF returned unchanged, the
wrapped read error, the wrapped header-extraction error, and ctx.Err() on
cancellation. -/
inductive TError where
  | eof
  | readErr (msg : String)
  | headersErr (msg : String)
  | ctxCancelled
  deriving DecidableEq

/-- Result of (a prefix of) the relay loop: the frames written to the
destination connection in order, the trace of store operations in order,
and the error the loop returned (none while still running). -/
structure LoopResult where
  written : List Frame
  ops : List SicOp
  err : Option TError
  deriving DecidableEq

/-- The body of transferFrame's type switch for one successfully read frame,
processed at time `now`: the frames written to the destination, the store
operations performed, and the error if the iteration failed.
Mirrors frame.go lines 36-174 case by case; `respFromServer := !reqFromClient`. -/
def transferStep (reqFromClient : Bool)
    (decode : List Nat → Except String (List HeaderField)) (now : Nat) :
    Frame → LoopResult
  | .settings isAck s =>
    if isAck then
      ⟨[.settings true []], [], none⟩
    else
      ⟨[.settings false (s.foldl (fun acc x => acc ++ [x]) [])], [], none⟩
  | .headers streamID frag endStream endHeaders _padLength pp =>
    let respFromServer := !reqFromClient
    let written := Frame.headers streamID frag endStream endHeaders 0 pp
    match extractHeaders decode frag with
    | .error e =>
      ⟨[written], [], some (.headersErr ("could not extract headers from frame: " ++ e))⟩
    | .ok (pseudoHeaders, ordinaryHeaders) =>
      let ops :=
        if reqFromClient then
          [.addHeadersForRequest streamID pseudoHeaders true,
           .addHeadersForRequest streamID ordinaryHeaders false]
        else if respFromServer then
          if endStream then
            let pseudoNormal := (splitGrpcTrailerHeaders pseudoHeaders).1
            let pseudoTrailer := (splitGrpcTrailerHeaders pseudoHeaders).2
            let ordinaryNormal := (splitGrpcTrailerHeaders ordinaryHeaders).1
            let ordinaryTrailer := (splitGrpcTrailerHeaders ordinaryHeaders).2
            [.addHeadersForResponse streamID pseudoNormal true false,
             .addHeadersForResponse streamID ordinaryNormal false false,
             .addHeadersForResponse streamID pseudoTrailer true true,
             .addHeadersForResponse streamID ordinaryTrailer false true]
          else
            [.addHeadersForResponse streamID pseudoHeaders true false,
             .addHeadersForResponse streamID ordinaryHeaders false false]
        else []
      let ops := if respFromServer && endStream then
          ops ++ [.persistMockForStream streamID, .resetStream streamID]
        else ops
      ⟨[written], ops, none⟩
  | .data streamID endStream bytes =>
    let respFromServer := !reqFromClient
    ⟨[.data streamID endStream bytes],
     if reqFromClient then
       [.setReqTimestampMock now, .addPayloadForRequest streamID bytes]
     else if respFromServer then
       [.setResTimestampMock now, .addPayloadForResponse streamID bytes]
     else [],
     none⟩
  | .ping isAck bytes => ⟨[.ping isAck bytes], [], none⟩
  | .windowUpdate streamID increment => ⟨[.windowUpdate streamID increment], [], none⟩
  | .continuation streamID endHeaders frag =>
    ⟨[.continuation streamID endHeaders frag], [], none⟩
  | .priority streamID param => ⟨[.priority streamID param], [], none⟩
  | .rstStream streamID errCode => ⟨[.rstStream streamID errCode], [], none⟩
  | .goAway streamID _lastStreamID errCode debugData =>
    ⟨[.goAway 0 streamID errCode debugData], [], none⟩
  | .pushPromise streamID promiseID frag endHeaders _padLength =>
    ⟨[.pushPromise streamID promiseID frag endHeaders 0], [], none⟩
  | .unknown _ _ _ _ => ⟨[], [], none⟩

/-- What one iteration of the relay loop observes: the select sees the
cancelled context, or framer.ReadFrame() yields a frame, io.EOF, or another
read error. -/
inductive LoopEvent where
  | cancel
  | read (f : Frame)
  | readEOF
  | readErr (msg : String)
  deriving DecidableEq

/-- The relay loop of transferFrame over a finite prefix of iteration
events, started at time `now`.  An empty event list means the loop is still
running (err = none). -/
def transferLoop (reqFromClient : Bool)
    (decode : List Nat → Except String (List HeaderField)) :
    Nat → List LoopEvent → LoopResult
  | _, [] => ⟨[], [], none⟩
  | _, .cancel :: _ => ⟨[], [], some .ctxCancelled⟩
  | _, .readEOF :: _ => ⟨[], [], some .eof⟩
  | _, .readErr m :: _ => ⟨[], [], some (.readErr ("error reading frame " ++ m))⟩
  | now, .read f :: rest =>
    let r := transferStep reqFromClient decode now f
    match r.err with
    | some e => ⟨r.written, r.ops, some e⟩
    | none =>
      let r2 := transferLoop reqFromClient decode (now + 1) rest
      ⟨r.written ++ r2.written, r.ops ++ r2.ops, r2.err⟩

/-- The two timestamp fields of the shared StreamInfoCollection that
frame.go assigns directly (sic.ReqTimestampMock, sic.ResTimestampMock).
They are collection-level fields, not keyed by stream. -/
structure SicState where
  reqTimestampMock : Nat
  resTimestampMock : Nat
  deriving DecidableEq

/-- Effect of one traced operation on the modelled collection fields: the
two timestamp assignments write their field; every other operation touches
only the per-stream data, which is not part of `SicState`. -/
def applySicOp (s : SicState) : SicOp → SicState
  | .setReqTimestampMock t => ⟨t, s.resTimestampMock⟩
  | .setResTimestampMock t => ⟨s.reqTimestampMock, t⟩
  | _ => s

/-- Fold a trace of store operations over the modelled collection fields. -/
def applySicOps (s : SicState) (ops : List SicOp) : SicState :=
  ops.foldl applySicOp s

/-- A decoder that decodes every fragment to the empty field list (used to
instantiate theorems at concrete inputs). -/
def decEmpty : List Nat → Except String (List HeaderField) :=
  fun _ => .ok []

/-- Concrete decoded field list with a repeated pseudo name (used to
instantiate theorems at concrete inputs). -/
def hfRepeat : List HeaderField :=
  [⟨":m", "1"⟩, ⟨"x", "9"⟩, ⟨":m", "2"⟩]

/-- A decoder that decodes every fragment to `hfRepeat`. -/
def decRepeat : List Nat → Except String (List HeaderField) :=
  fun _ => .ok hfRepeat

/-- Concrete header map with one "grpc-" key and one other key. -/
def hdrsGrpc : GoMap :=
  [("grpc-status", "0"), ("content-type", "application/grpc")]

/-- Concrete end-of-stream response Headers frame on stream 7. -/
def headersEndStream7 : Frame :=
  .headers 7 [] true true 0 ⟨0, false, 0⟩

/-  ------------------------------------------------------------------
    Theorems
    ------------------------------------------------------------------ -/

/-- ForeachSetting with an appending callback reproduces the enumerated
settings in enumeration order. -/
lemma foldl_append_singleton {α : Type} (l : List α) :
    ∀ acc : List α, l.foldl (fun a x => a ++ [x]) acc = acc ++ l := by
  induction l with
  | nil => intro acc; simp
  | cons x t ih => intro acc; simp [List.foldl_cons, ih]

/-- C7: for every Settings frame read from the source, an acknowledgment is
forwarded as a settings acknowledgment, and a non-acknowledgment is
forwarded as a fresh Settings frame carrying exactly the settings
enumerated in the received frame, in enumeration order, with values
unchanged; no store operation and no error results. -/
theorem settings_relay_value_preserving (d : Bool)
    (dec : List Nat → Except String (List HeaderField)) (n : Nat) (s : List Setting) :
    transferStep d dec n (.settings true s) = ⟨[.settings true []], [], none⟩
    ∧ transferStep d dec n (.settings false s) = ⟨[.settings false s], [], none⟩ := by
  refine ⟨rfl, ?_⟩
  simp [transferStep, foldl_append_singleton]

/-- C3: evaluation of the relay at a GoAway frame whose Last-Stream-ID is 5
(its frame-header stream id is 0, as the http2 parser guarantees): the
forwarded GoAway frame carries Last-Stream-ID 0, because the code passes
goAwayFrame.StreamID — the header stream id — to WriteGoAway, whose first
parameter is the Last-Stream-ID field.  The original value 5 is discarded,
so the frame is not forwarded field for field. -/
theorem goAway_lastStreamID_rewritten :
    (transferStep true decEmpty 0 (.goAway 0 5 2 [1, 2])).written
      = [.goAway 0 0 2 [1, 2]]
    ∧ (5 : Nat) ≠ 0 :=
  ⟨rfl, by decide⟩

/-- C9: a frame matching none of the ten cases of the type switch is
consumed but produces no write, no store operation and no error, and the
loop simply continues with the next iteration. -/
theorem unknown_frame_silently_dropped (d : Bool)
    (dec : List Nat → Except String (List HeaderField)) (n typ flags sid : Nat)
    (payload : List Nat) (rest : List LoopEvent) :
    transferStep d dec n (.unknown typ flags sid payload) = ⟨[], [], none⟩
    ∧ transferLoop d dec n (.read (.unknown typ flags sid payload) :: rest)
        = transferLoop d dec (n + 1) rest := by
  constructor
  · rfl
  · simp [transferLoop, transferStep]

/-- C5 (amended): processing a Data frame at time `now` overwrites the
direction's collection-level timestamp with `now`, whatever the previous
value and whatever the stream identifier: the recorded timestamp is that of
the most recent Data frame in the direction, not the first. -/
theorem data_timestamp_overwritten_every_frame
    (dec : List Nat → Except String (List HeaderField)) (n sid : Nat) (es : Bool)
    (bytes : List Nat) (s : SicState) :
    (applySicOps s (transferStep true dec n (.data sid es bytes)).ops).reqTimestampMock = n
    ∧ (applySicOps s (transferStep false dec n (.data sid es bytes)).ops).resTimestampMock = n
    ∧ (applySicOps s (transferStep false dec n (.data sid es bytes)).ops).reqTimestampMock
        = s.reqTimestampMock := by
  refine ⟨rfl, rfl, rfl⟩

/-- C5 counterexample: with the relay started at time 0 in the request
direction, after the first Data frame of stream 1 the recorded request
timestamp is 0, but after a second Data frame of the same stream it is 1 —
the later Data frame changed the recorded timestamp, contradicting the
claim that the timestamp is that of the first Data frame. -/
theorem data_timestamp_not_first_frame :
    (applySicOps ⟨99, 99⟩ (transferLoop true decEmpty 0
        [.read (.data 1 false [104]), .read (.data 1 true [105])]).ops).reqTimestampMock = 1
    ∧ (applySicOps ⟨99, 99⟩ (transferLoop true decEmpty 0
        [.read (.data 1 false [104])]).ops).reqTimestampMock = 0
    ∧ (1 : Nat) ≠ 0 :=
  ⟨rfl, rfl, by decide⟩

/-- C10: the request and response timestamps are single collection-level
fields: any two Data frames in a direction — for any stream identifiers,
equal or different — write the same field, and the later frame's time wins.
After relaying Data frames of streams `sid1` then `sid2` starting at time
`n`, the request-direction loop leaves ReqTimestampMock = n + 1, and the
response-direction loop leaves ResTimestampMock = n + 1, for every
previous state. -/
theorem timestamps_shared_across_streams
    (dec : List Nat → Except String (List HeaderField)) (n sid1 sid2 : Nat)
    (es1 es2 : Bool) (b1 b2 : List Nat) (s : SicState) :
    (applySicOps s (transferLoop true dec n
        [.read (.data sid1 es1 b1), .read (.data sid2 es2 b2)]).ops).reqTimestampMock = n + 1
    ∧ (applySicOps s (transferLoop false dec n
        [.read (.data sid1 es1 b1), .read (.data sid2 es2 b2)]).ops).resTimestampMock = n + 1 := by
  refine ⟨rfl, rfl⟩

/-- Splitting the relay loop at an error-free prefix: the loop on
`evs ++ evs2` writes the prefix outputs followed by the outputs of the loop
resumed on `evs2` at time `n + evs.length`, and returns the resumed loop's
error. -/
lemma transferLoop_append (d : Bool)
    (dec : List Nat → Except String (List HeaderField)) (evs : List LoopEvent) :
    ∀ (n : Nat) (evs2 : List LoopEvent), (transferLoop d dec n evs).err = none →
      transferLoop d dec n (evs ++ evs2) =
        ⟨(transferLoop d dec n evs).written
           ++ (transferLoop d dec (n + evs.length) evs2).written,
         (transferLoop d dec n evs).ops
           ++ (transferLoop d dec (n + evs.length) evs2).ops,
         (transferLoop d dec (n + evs.length) evs2).err⟩ := by
  induction evs with
  | nil => intro n evs2 _; simp [transferLoop]
  | cons e t ih =>
    intro n evs2 h
    cases e with
    | cancel => simp [transferLoop] at h
    | readEOF => simp [transferLoop] at h
    | readErr m => simp [transferLoop] at h
    | read f =>
      rcases herr : (transferStep d dec n f).err with _ | e0
      · have h2 : (transferLoop d dec (n + 1) t).err = none := by
          simp [transferLoop, herr] at h
          exact h
        have hlen : n + (t.length + 1) = n + 1 + t.length := by omega
        simp [transferLoop, herr, ih (n + 1) evs2 h2, List.append_assoc, hlen]
      · exfalso
        simp [transferLoop, herr] at h

/-- C4: if reading the next frame fails at some iteration, the loop stops
at that iteration with no further frame forwarded and no further store
operation: a clean end-of-stream (io.EOF) is returned unchanged as the
distinguished `eof` value, while any other read error is returned wrapped
in the descriptive message "error reading frame ...", a value distinct
from `eof`. -/
theorem read_error_terminates (d : Bool)
    (dec : List Nat → Except String (List HeaderField)) (n : Nat)
    (evs rest : List LoopEvent) (m : String) :
    ((transferLoop d dec n evs).err = none →
      transferLoop d dec n (evs ++ .readEOF :: rest) =
        ⟨(transferLoop d dec n evs).written, (transferLoop d dec n evs).ops, some .eof⟩
      ∧ transferLoop d dec n (evs ++ .readErr m :: rest) =
        ⟨(transferLoop d dec n evs).written, (transferLoop d dec n evs).ops,
         some (.readErr ("error reading frame " ++ m))⟩)
    ∧ (∀ s : String, TError.eof ≠ TError.readErr s) := by
  constructor
  · intro h
    constructor
    · rw [transferLoop_append d dec evs n (.readEOF :: rest) h]
      simp [transferLoop]
    · rw [transferLoop_append d dec evs n (.readErr m :: rest) h]
      simp [transferLoop]
  · intro s hcontra
    cases hcontra

/-- C4 witness: after one cleanly relayed Ping frame the loop hits EOF,
returns exactly the Ping written so far with the `eof` error, and ignores
the rest of the input. -/
theorem read_error_terminates_witness :
    transferLoop true decEmpty 0
        ([.read (.ping true [0])] ++ .readEOF :: [.read (.ping false [1])]) =
      ⟨(transferLoop true decEmpty 0 [.read (.ping true [0])]).written,
       (transferLoop true decEmpty 0 [.read (.ping true [0])]).ops, some .eof⟩ :=
  ((read_error_terminates true decEmpty 0 [.read (.ping true [0])]
      [.read (.ping false [1])] "x").1 rfl).1

/-- C8: if the governing context is cancelled, the next loop iteration
returns ctx.Err() — modelled as the `ctxCancelled` value, distinct from the
eof, transport and decode errors — without reading or forwarding any
further frame and without any further store operation. -/
theorem ctx_cancel_distinct (d : Bool)
    (dec : List Nat → Except String (List HeaderField)) (n : Nat)
    (evs rest : List LoopEvent) :
    ((transferLoop d dec n evs).err = none →
      transferLoop d dec n (evs ++ .cancel :: rest) =
        ⟨(transferLoop d dec n evs).written, (transferLoop d dec n evs).ops,
         some .ctxCancelled⟩)
    ∧ TError.ctxCancelled ≠ TError.eof
    ∧ (∀ m : String, TError.ctxCancelled ≠ TError.readErr m)
    ∧ (∀ m : String, TError.ctxCancelled ≠ TError.headersErr m) := by
  refine ⟨?_, ?_, ?_, ?_⟩
  · intro h
    rw [transferLoop_append d dec evs n (.cancel :: rest) h]
    simp [transferLoop]
  · intro h; cases h
  · intro m h; cases h
  · intro m h; cases h

/-- C8 witness: after one cleanly relayed Ping frame the cancelled context
is observed, and the loop returns the cancellation error with exactly the
outputs produced so far, ignoring the rest of the input. -/
theorem ctx_cancel_distinct_witness :
    transferLoop true decEmpty 0
        ([.read (.ping true [2])] ++ .cancel :: [.read (.ping false [3])]) =
      ⟨(transferLoop true decEmpty 0 [.read (.ping true [2])]).written,
       (transferLoop true decEmpty 0 [.read (.ping true [2])]).ops,
       some .ctxCancelled⟩ :=
  (ctx_cancel_distinct true decEmpty 0 [.read (.ping true [2])]
      [.read (.ping false [3])]).1 rfl

/-- A PersistMockForStream or ResetStream invocation in the trace of one
iteration forces the response direction and an end-of-stream Headers frame
on that very stream. -/
lemma step_persist_reset_mem (d : Bool)
    (dec : List Nat → Except String (List HeaderField)) (n : Nat) (f : Frame) (sid : Nat)
    (h : SicOp.persistMockForStream sid ∈ (transferStep d dec n f).ops
       ∨ SicOp.resetStream sid ∈ (transferStep d dec n f).ops) :
    d = false ∧ ∃ frag eh pad pp, f = .headers sid frag true eh pad pp := by
  cases f with
  | settings isAck s =>
    cases isAck <;> rcases h with h | h <;> simp [transferStep] at h
  | headers sid2 frag es eh pad pp =>
    rcases hE : extractHeaders dec frag with e | po
    · rcases h with h | h <;> simp [transferStep, hE] at h
    · obtain ⟨p, o⟩ := po
      cases d with
      | true => rcases h with h | h <;> simp [transferStep, hE] at h
      | false =>
        cases es with
        | false => rcases h with h | h <;> simp [transferStep, hE] at h
        | true =>
          have hsid : sid = sid2 := by
            rcases h with h | h <;> simp [transferStep, hE] at h <;> exact h
          exact ⟨rfl, frag, eh, pad, pp, by rw [hsid]⟩
  | data sid2 es bytes =>
    cases d <;> rcases h with h | h <;> simp [transferStep] at h
  | ping isAck bytes => rcases h with h | h <;> simp [transferStep] at h
  | windowUpdate sid2 inc => rcases h with h | h <;> simp [transferStep] at h
  | continuation sid2 eh frag => rcases h with h | h <;> simp [transferStep] at h
  | priority sid2 param => rcases h with h | h <;> simp [transferStep] at h
  | rstStream sid2 code => rcases h with h | h <;> simp [transferStep] at h
  | goAway sid2 last code dbg => rcases h with h | h <;> simp [transferStep] at h
  | pushPromise sid2 pid frag eh pad => rcases h with h | h <;> simp [transferStep] at h
  | unknown t fl sid2 p => rcases h with h | h <;> simp [transferStep] at h

/-- Lifting `step_persist_reset_mem` over the whole loop: a
PersistMockForStream invocation anywhere in the loop's trace forces the
response direction and an end-of-stream Headers frame among the events. -/
lemma loop_persist_mem (d : Bool)
    (dec : List Nat → Except String (List HeaderField)) (evs : List LoopEvent) :
    ∀ (m sid : Nat), SicOp.persistMockForStream sid ∈ (transferLoop d dec m evs).ops →
      d = false ∧ ∃ frag eh pad pp,
        LoopEvent.read (.headers sid frag true eh pad pp) ∈ evs := by
  induction evs with
  | nil => intro m sid h; simp [transferLoop] at h
  | cons e t ih =>
    intro m sid h
    cases e with
    | cancel => simp [transferLoop] at h
    | readEOF => simp [transferLoop] at h
    | readErr s => simp [transferLoop] at h
    | read f =>
      rcases herr : (transferStep d dec m f).err with _ | e0
      · simp [transferLoop, herr] at h
        rcases h with h | h
        · obtain ⟨hd, frag, eh, pad, pp, rfl⟩ :=
            step_persist_reset_mem d dec m f sid (Or.inl h)
          exact ⟨hd, frag, eh, pad, pp, by simp⟩
        · obtain ⟨hd, frag, eh, pad, pp, hmem⟩ := ih (m + 1) sid h
          exact ⟨hd, frag, eh, pad, pp, by simp [hmem]⟩
      · simp [transferLoop, herr] at h
        obtain ⟨hd, frag, eh, pad, pp, rfl⟩ :=
          step_persist_reset_mem d dec m f sid (Or.inl h)
        exact ⟨hd, frag, eh, pad, pp, by simp⟩

/-- C1: PersistMockForStream followed immediately by ResetStream is invoked
for a stream identifier if and only if the direction is server-to-client
(reqFromClient = false) and the Headers frame just processed has the
end-of-stream flag set: (i) any traced persist or reset invocation comes
from a response-direction end-of-stream Headers frame on that stream — so
no other frame type or direction ever invokes them, also across a whole
loop run — and (ii) a successfully processed response-direction
end-of-stream Headers frame ends its trace exactly with the invocation of
PersistMockForStream followed by ResetStream for its stream. -/
theorem persist_reset_sole_trigger (d : Bool)
    (dec : List Nat → Except String (List HeaderField)) (n : Nat) (f : Frame) :
    (∀ sid, SicOp.persistMockForStream sid ∈ (transferStep d dec n f).ops
        ∨ SicOp.resetStream sid ∈ (transferStep d dec n f).ops →
      d = false ∧ ∃ frag eh pad pp, f = .headers sid frag true eh pad pp)
    ∧ (∀ sid frag eh pad pp, d = false → f = .headers sid frag true eh pad pp →
        (transferStep d dec n f).err = none →
        [SicOp.persistMockForStream sid, SicOp.resetStream sid]
          <:+ (transferStep d dec n f).ops)
    ∧ (∀ sid m evs, SicOp.persistMockForStream sid ∈ (transferLoop d dec m evs).ops →
        d = false ∧ ∃ frag eh pad pp,
          LoopEvent.read (.headers sid frag true eh pad pp) ∈ evs) := by
  refine ⟨fun sid h => step_persist_reset_mem d dec n f sid h, ?_,
    fun sid m evs h => loop_persist_mem d dec evs m sid h⟩
  intro sid frag eh pad pp hd hf herr
  subst hd hf
  rcases hE : extractHeaders dec frag with e | po
  · simp [transferStep, hE] at herr
  · obtain ⟨p, o⟩ := po
    refine ⟨[.addHeadersForResponse sid (splitGrpcTrailerHeaders p).1 true false,
             .addHeadersForResponse sid (splitGrpcTrailerHeaders o).1 false false,
             .addHeadersForResponse sid (splitGrpcTrailerHeaders p).2 true true,
             .addHeadersForResponse sid (splitGrpcTrailerHeaders o).2 false true], ?_⟩
    simp [transferStep, hE]

/-- C1 witness: the response-direction end-of-stream Headers frame on
stream 7, decoded to the empty field list, ends its operation trace with
PersistMockForStream 7 immediately followed by ResetStream 7. -/
theorem persist_reset_sole_trigger_witness :
    [SicOp.persistMockForStream 7, SicOp.resetStream 7]
      <:+ (transferStep false decEmpty 0 headersEndStream7).ops :=
  (persist_reset_sole_trigger false decEmpty 0 headersEndStream7).2.1
    7 [] true 0 ⟨0, false, 0⟩ rfl rfl rfl

/-- Inserting a fresh key into a Go map appends the binding. -/
lemma mapUpsert_of_not_mem (m : GoMap) (k v : String) (h : k ∉ m.map Prod.fst) :
    mapUpsert m k v = m ++ [(k, v)] := by
  induction m with
  | nil => rfl
  | cons kv t ih =>
    obtain ⟨k0, v0⟩ := kv
    simp only [List.map_cons, List.mem_cons, not_or] at h
    have hne : (k0 == k) = false := by
      simp only [beq_eq_false_iff_ne]
      exact fun heq => h.1 heq.symm
    simp [mapUpsert, hne, ih h.2]

/-- The splitGrpcTrailerHeaders fold, started from accumulators whose keys
are fresh for a pairwise-distinct-key input, appends exactly the two filter
halves of the input. -/
lemma splitFold_eq_filter (l : List (String × String)) :
    ∀ (acc1 acc2 : GoMap), l.Pairwise (fun a b => a.1 ≠ b.1) →
      (∀ p ∈ l, p.1 ∉ acc1.map Prod.fst) →
      (∀ p ∈ l, p.1 ∉ acc2.map Prod.fst) →
      l.foldl splitStep (acc1, acc2) =
        (acc1 ++ l.filter (fun kv => !startsWithGrpc kv.1),
         acc2 ++ l.filter (fun kv => startsWithGrpc kv.1)) := by
  induction l with
  | nil => intro acc1 acc2 _ _ _; simp
  | cons kv t ih =>
    intro acc1 acc2 hpw h1 h2
    obtain ⟨k, v⟩ := kv
    rw [List.foldl_cons, List.pairwise_cons] at *
    rcases hpw with ⟨hk, hpwt⟩
    cases hg : startsWithGrpc k with
    | true =>
      have hstep : splitStep (acc1, acc2) (k, v) = (acc1, mapUpsert acc2 k v) := by
        simp [splitStep, hg]
      rw [hstep, mapUpsert_of_not_mem acc2 k v (h2 (k, v) (by simp))]
      rw [ih acc1 (acc2 ++ [(k, v)]) hpwt
        (fun p hp => h1 p (List.mem_cons_of_mem _ hp))
        (fun p hp => by
          simp only [List.map_append, List.mem_append, not_or]
          exact ⟨h2 p (List.mem_cons_of_mem _ hp),
            by simpa using fun heq => hk p hp heq.symm⟩)]
      simp [List.filter_cons, hg, List.append_assoc]
    | false =>
      have hstep : splitStep (acc1, acc2) (k, v) = (mapUpsert acc1 k v, acc2) := by
        simp [splitStep, hg]
      rw [hstep, mapUpsert_of_not_mem acc1 k v (h1 (k, v) (by simp))]
      rw [ih (acc1 ++ [(k, v)]) acc2 hpwt
        (fun p hp => by
          simp only [List.map_append, List.mem_append, not_or]
          exact ⟨h1 p (List.mem_cons_of_mem _ hp),
            by simpa using fun heq => hk p hp heq.symm⟩)
        (fun p hp => h2 p (List.mem_cons_of_mem _ hp))]
      simp [List.filter_cons, hg, List.append_assoc]

/-- On a map with pairwise-distinct keys, splitGrpcTrailerHeaders is the
filter partition by the "grpc-" prefix. -/
lemma splitGrpc_eq_filter (headers : GoMap)
    (h : headers.Pairwise (fun a b => a.1 ≠ b.1)) :
    splitGrpcTrailerHeaders headers =
      (headers.filter (fun kv => !startsWithGrpc kv.1),
       headers.filter (fun kv => startsWithGrpc kv.1)) := by
  unfold splitGrpcTrailerHeaders
  rw [splitFold_eq_filter headers [] [] h (by simp) (by simp)]
  simp

/-- C2: for a header map (pairwise-distinct keys, as every Go map has),
splitGrpcTrailerHeaders is a total disjoint partition: a binding is in the
trailer map iff it is an input binding whose key has the "grpc-" prefix, a
binding is in the normal map iff it is an input binding whose key lacks the
prefix — values kept unchanged — and no key occurs in both maps. -/
theorem splitGrpcTrailerHeaders_partition (headers : GoMap)
    (h : headers.Pairwise (fun a b => a.1 ≠ b.1)) :
    (∀ k v, (k, v) ∈ (splitGrpcTrailerHeaders headers).2 ↔
        (k, v) ∈ headers ∧ startsWithGrpc k = true)
    ∧ (∀ k v, (k, v) ∈ (splitGrpcTrailerHeaders headers).1 ↔
        (k, v) ∈ headers ∧ startsWithGrpc k = false)
    ∧ (∀ k, ¬(k ∈ (splitGrpcTrailerHeaders headers).1.map Prod.fst
          ∧ k ∈ (splitGrpcTrailerHeaders headers).2.map Prod.fst)) := by
  rw [splitGrpc_eq_filter headers h]
  refine ⟨?_, ?_, ?_⟩
  · intro k v
    simp [List.mem_filter]
  · intro k v
    simp [List.mem_filter]
  · rintro k ⟨h1, h2⟩
    simp only [List.mem_map, List.mem_filter] at h1 h2
    obtain ⟨⟨k1, v1⟩, ⟨_, hg1⟩, hk1⟩ := h1
    obtain ⟨⟨k2, v2⟩, ⟨_, hg2⟩, hk2⟩ := h2
    subst hk1
    subst hk2
    simp_all

/-- C2 witness: in the concrete map with keys "grpc-status" and
"content-type", the binding of "grpc-status" lands in the trailer map. -/
theorem splitGrpcTrailerHeaders_partition_witness :
    ("grpc-status", "0") ∈ (splitGrpcTrailerHeaders hdrsGrpc).2 :=
  ((splitGrpcTrailerHeaders_partition hdrsGrpc (by decide)).1 "grpc-status" "0").mpr
    ⟨by decide, by decide⟩

/-- Lookup after a Go map assignment: the assigned key reads the new value,
every other key is unaffected. -/
lemma lookup_mapUpsert (m : GoMap) (k v k' : String) :
    (mapUpsert m k v).lookup k' = if (k' == k) = true then some v else m.lookup k' := by
  induction m with
  | nil => cases hk : k' == k <;> simp [mapUpsert, List.lookup, hk]
  | cons kv t ih =>
    obtain ⟨k0, v0⟩ := kv
    by_cases h0 : k0 = k
    · subst h0
      cases hk : k' == k0 <;> simp [mapUpsert, List.lookup, hk]
    · have h0b : (k0 == k) = false := by simpa using h0
      by_cases hk : k' = k
      · subst hk
        have : (k' == k0) = false := by
          simpa using fun heq => h0 heq.symm
        simp [mapUpsert, List.lookup, h0b, this, ih]
      · have hkb : (k' == k) = false := by simpa using hk
        by_cases hk0 : k' = k0
        · subst hk0
          simp [mapUpsert, List.lookup, h0b, hkb]
        · have hk0b : (k' == k0) = false := by simpa using hk0
          simp [mapUpsert, List.lookup, h0b, hkb, hk0b, ih]

/-- getLast? of a cons, phrased with Option.or. -/
lemma getLast?_cons_or {α : Type} (a : α) (l : List α) :
    (a :: l).getLast? = l.getLast?.or (some a) := by
  induction l generalizing a with
  | nil => rfl
  | cons b t ih =>
    rw [List.getLast?_cons_cons, ih b]
    cases htl : t.getLast? <;> simp [ih b, htl]

/-- Option.or with a some on the left. -/
lemma optOr_some_left {α : Type} (a : α) (x : Option α) : (some a).or x = some a := rfl

/-- Option.or is associative. -/
lemma optOr_assoc {α : Type} (a b c : Option α) : (a.or b).or c = a.or (b.or c) := by
  cases a <;> rfl

/-- Option.map over an Option.or whose right branch is a some. -/
lemma optMap_or_some {α β : Type} (f : α → β) (x : Option α) (a : α) :
    (x.or (some a)).map f = (x.map f).or (some (f a)) := by
  cases x <;> rfl

/-- The pseudo side of the extractHeaders fold: for a pseudo name the last
decoded occurrence wins, falling back to the initial accumulator; a
non-pseudo name never enters the pseudo map. -/
lemma classifyFold_fst (hf : List HeaderField) :
    ∀ (p o : GoMap) (k : String),
      (hf.foldl classifyStep (p, o)).1.lookup k =
        if isPseudoName k = true then
          ((hf.filter (fun x => x.name == k)).getLast?.map HeaderField.value).or
            (p.lookup k)
        else p.lookup k := by
  induction hf with
  | nil =>
    intro p o k
    cases hk : isPseudoName k <;> simp [hk]
  | cons h t ih =>
    intro p o k
    rw [List.foldl_cons]
    cases hph : isPseudoName h.name with
    | false =>
      have hstep : classifyStep (p, o) h = (p, mapUpsert o h.name h.value) := by
        simp [classifyStep, hph]
      rw [hstep, ih p (mapUpsert o h.name h.value) k]
      cases hk : isPseudoName k with
      | false => simp [hk]
      | true =>
        have hne : (h.name == k) = false := by
          simpa using fun heq : h.name = k => by rw [heq, hk] at hph; cases hph
        simp [hk, List.filter_cons, hne]
    | true =>
      have hstep : classifyStep (p, o) h = (mapUpsert p h.name h.value, o) := by
        simp [classifyStep, hph]
      rw [hstep, ih (mapUpsert p h.name h.value) o k]
      cases hk : isPseudoName k with
      | false =>
        have hne : (k == h.name) = false := by
          simpa using fun heq : k = h.name => by rw [heq, hph] at hk; cases hk
        simp [hk, lookup_mapUpsert, hne]
      | true =>
        by_cases hbk : h.name = k
        · subst hbk
          have hpk : (mapUpsert p h.name h.value).lookup h.name = some h.value := by
            rw [lookup_mapUpsert]; simp
          rw [if_pos rfl, if_pos rfl, hpk, List.filter_cons_of_pos (by simp),
            getLast?_cons_or, optMap_or_some, optOr_assoc, optOr_some_left]
        · have hne1 : (h.name == k) = false := by simpa using hbk
          have hne2 : (k == h.name) = false := by
            simpa using fun heq : k = h.name => hbk heq.symm
          have hpk : (mapUpsert p h.name h.value).lookup k = p.lookup k := by
            rw [lookup_mapUpsert]; simp [hne2]
          simp [hk, hpk, List.filter_cons, hne1]

/-- The ordinary side of the extractHeaders fold, symmetric to
`classifyFold_fst`. -/
lemma classifyFold_snd (hf : List HeaderField) :
    ∀ (p o : GoMap) (k : String),
      (hf.foldl classifyStep (p, o)).2.lookup k =
        if isPseudoName k = true then o.lookup k
        else
          ((hf.filter (fun x => x.name == k)).getLast?.map HeaderField.value).or
            (o.lookup k) := by
  induction hf with
  | nil =>
    intro p o k
    cases hk : isPseudoName k <;> simp [hk]
  | cons h t ih =>
    intro p o k
    rw [List.foldl_cons]
    cases hph : isPseudoName h.name with
    | true =>
      have hstep : classifyStep (p, o) h = (mapUpsert p h.name h.value, o) := by
        simp [classifyStep, hph]
      rw [hstep, ih (mapUpsert p h.name h.value) o k]
      cases hk : isPseudoName k with
      | true => simp [hk]
      | false =>
        have hne : (h.name == k) = false := by
          simpa using fun heq : h.name = k => by rw [heq, hk] at hph; cases hph
        simp [hk, List.filter_cons, hne]
    | false =>
      have hstep : classifyStep (p, o) h = (p, mapUpsert o h.name h.value) := by
        simp [classifyStep, hph]
      rw [hstep, ih p (mapUpsert o h.name h.value) k]
      cases hk : isPseudoName k with
      | true =>
        have hne : (k == h.name) = false := by
          simpa using fun heq : k = h.name => by rw [heq, hph] at hk; cases hk
        simp [hk, lookup_mapUpsert, hne]
      | false =>
        by_cases hbk : h.name = k
        · subst hbk
          have hok : (mapUpsert o h.name h.value).lookup h.name = some h.value := by
            rw [lookup_mapUpsert]; simp
          rw [if_neg (by simp [hk]), if_neg (by simp [hk]), hok,
            List.filter_cons_of_pos (by simp),
            getLast?_cons_or, optMap_or_some, optOr_assoc, optOr_some_left]
        · have hne1 : (h.name == k) = false := by simpa using hbk
          have hne2 : (k == h.name) = false := by
            simpa using fun heq : k = h.name => hbk heq.symm
          have hok : (mapUpsert o h.name h.value).lookup k = o.lookup k := by
            rw [lookup_mapUpsert]; simp [hne2]
          simp [hk, hok, List.filter_cons, hne1]

/-- C6: extractHeaders on a decode failure returns the wrapped decode error
(with nil maps, i.e. no maps); on decode success it returns the two maps
partitioning the decoded fields — a pseudo name reads from the pseudo map
and never from the ordinary map, any other name the reverse — and when a
name was decoded more than once the value of the last occurrence in decode
order wins. -/
theorem extractHeaders_spec (decode : List Nat → Except String (List HeaderField))
    (frag : List Nat) :
    (∀ e, decode frag = .error e →
      extractHeaders decode frag = .error ("could not decode headers: " ++ e))
    ∧ (∀ hf, decode frag = .ok hf →
      ∃ p o, extractHeaders decode frag = .ok (p, o)
        ∧ (∀ k, p.lookup k =
            if isPseudoName k = true then
              (hf.filter (fun x => x.name == k)).getLast?.map HeaderField.value
            else none)
        ∧ (∀ k, o.lookup k =
            if isPseudoName k = true then none
            else (hf.filter (fun x => x.name == k)).getLast?.map HeaderField.value)) := by
  constructor
  · intro e he
    simp [extractHeaders, he]
  · intro hf hok
    refine ⟨(hf.foldl classifyStep ([], [])).1, (hf.foldl classifyStep ([], [])).2,
      by simp [extractHeaders, hok], ?_, ?_⟩
    · intro k
      rw [classifyFold_fst hf [] [] k]
      cases hk : isPseudoName k <;> simp
    · intro k
      rw [classifyFold_snd hf [] [] k]
      cases hk : isPseudoName k <;> simp

/-- C6 witness: with the decoded field list [:m→1, x→9, :m→2], the pseudo
map binds :m to "2" — the last occurrence wins — and the ordinary map does
not bind :m. -/
theorem extractHeaders_spec_witness :
    (extractHeaders decRepeat []).toOption.map
        (fun po => (po.1.lookup ":m", po.2.lookup ":m", po.2.lookup "x"))
      = some (some "2", none, some "9") := by
  obtain ⟨p, o, heq, hp, ho⟩ := (extractHeaders_spec decRepeat []).2 hfRepeat rfl
  rw [heq]
  simp only [Except.toOption, Option.map]
  rw [hp ":m", ho ":m", ho "x"]
  decide

end Keploy
